import Mathlib

/-!
Shallow embedding of the mcb-proxies core (source ingestion, proxy checking,
live-proxy selection) and verification of its specification claims.

Timestamps are modelled as integers (seconds); `utc(hours=-1)` relative to a
clock reading `now` is `now - 3600`, `utc_now_offset(minutes=-5)` is
`now - 300`. Optional values are `Option`; Python truthiness of an optional
string (`None` and `""` are falsy) is the predicate `pyTruthy`.
-/

namespace McbProxies

/-- Proxy protocol type (`Protocol` in `app/core/db.py`). -/
inductive Protocol where
  | http
  | socks5
deriving DecidableEq, Repr

/-- Proxy health status (`Status` in `app/core/db.py`). -/
inductive Status where
  | unknown
  | ok
  | down
deriving DecidableEq, Repr

/-- Python truthiness of an optional string: `None` and `""` are falsy. -/
def pyTruthy : Option String → Bool
  | none => false
  | some s => !(s == "")

/-- `s.startswith(pre)` over the underlying character lists (kept
kernel-reducible). -/
def strStartsWith (s pre : String) : Bool := pre.data.isPrefixOf s.data

/-- Split a character list at the first occurrence of `sep`, returning the
parts before and after it; `none` when `sep` does not occur. -/
def splitFirstSep (sep : List Char) : List Char → Option (List Char × List Char)
  | [] => none
  | c :: rest =>
    if sep.isPrefixOf (c :: rest) then some ([], (c :: rest).drop sep.length)
    else
      match splitFirstSep sep rest with
      | some (pre, post) => some (c :: pre, post)
      | none => none

/-- Python `int(s)` restricted to the decimal forms this program feeds it:
an optional sign followed by digits; anything else raises (modelled as
`none`). -/
def pyInt (s : String) : Option Int :=
  let digitsVal : List Char → Option Nat := fun l =>
    if l ≠ [] ∧ l.all Char.isDigit then
      some (l.foldl (fun acc c => acc * 10 + (c.toNat - 48)) 0)
    else none
  match s.data with
  | '-' :: rest => (digitsVal rest).map (fun n => -(n : Int))
  | '+' :: rest => (digitsVal rest).map (fun n => (n : Int))
  | l => (digitsVal l).map (fun n => (n : Int))

/-- Valid URL scheme as recognised by `urllib.parse`: a letter followed by
letters, digits, `+`, `-` or `.`. -/
def validScheme : List Char → Bool
  | [] => false
  | c :: rest => c.isAlpha && rest.all (fun d => d.isAlphanum || d == '+' || d == '-' || d == '.')

/-- `urlparse(url).hostname` for URLs of the shape
`scheme://[user:pass@]host[:port][/...]`: the part of the network location
after the last `@` and before the first `:`, lower-cased; `None` when absent
or empty. -/
def urlparseHostname (url : String) : Option String :=
  match splitFirstSep [':', '/', '/'] url.data with
  | none => none
  | some (scheme, after) =>
    if validScheme scheme then
      let netloc := after.takeWhile (fun c => !(c == '/') && !(c == '?') && !(c == '#'))
      let hostinfo := (netloc.reverse.takeWhile (fun c => !(c == '@'))).reverse
      let host := hostinfo.takeWhile (fun c => !(c == ':'))
      if host.isEmpty then none
      else some (String.mk (host.map Char.toLower))
    else none

/-- A `Source` record (`app/core/db.py`): ingestion configuration. -/
structure Source where
  id : String
  default_protocol : Option Protocol := none
  default_username : Option String := none
  default_password : Option String := none
  default_port : Option Int := none
  entries_url : Option String := none
  entries : List String := []
  created_at : Int := 0
  checked_at : Option Int := none
deriving DecidableEq, Repr

/-- A `Proxy` record (`app/core/db.py`): one checkable endpoint. The MongoDB
`ObjectId` is modelled as a natural number. -/
structure Proxy where
  id : Nat
  source : String
  url : String
  external_ip : Option String := none
  status : Status := .unknown
  protocol : Protocol
  created_at : Int := 0
  checked_at : Option Int := none
  last_ok_at : Option Int := none
  check_history : List Bool := []
deriving DecidableEq, Repr

/-- Python `entry.rsplit(":", 1)` guarded by `":" in entry`: splits at the
last colon, returning `none` when the string has no colon. -/
def rsplitColon (s : String) : Option (String × String) :=
  let l := s.data
  if l.contains ':' then
    let rev := l.reverse
    let portRev := rev.takeWhile (fun c => !(c == ':'))
    some (String.mk (rev.drop (portRev.length + 1)).reverse, String.mk portRev.reverse)
  else none

/-- The `f"{schema}://[{user}:{pass}@]{host}:{port}"` assembly at the end of
`Source.build_proxy_url`: credentials are embedded only when both
`default_username` and `default_password` are truthy. -/
def mkProxyUrl (schema : String) (src : Source) (host : String) (port : Int) : String :=
  if pyTruthy src.default_username && pyTruthy src.default_password then
    schema ++ "://" ++ src.default_username.getD "" ++ ":" ++ src.default_password.getD ""
      ++ "@" ++ host ++ ":" ++ toString port
  else
    schema ++ "://" ++ host ++ ":" ++ toString port

/-- `Source.build_proxy_url` (`app/core/db.py`): build a full proxy URL from
an entry, using the source defaults; raising `ValueError` is modelled as
`Except.error`. -/
def Source.build_proxy_url (src : Source) (entry : String) : Except String String :=
  if strStartsWith entry "http://" || strStartsWith entry "https://"
      || strStartsWith entry "socks5://" then
    .ok entry
  else
    let protocol := src.default_protocol.getD Protocol.http
    let schema := if protocol = Protocol.socks5 then "socks5" else "http"
    match rsplitColon entry with
    | some (host, portStr) =>
      match pyInt portStr with
      | some port => .ok (mkProxyUrl schema src host port)
      | none => .error ("invalid literal for int: " ++ portStr)
    | none =>
      match src.default_port with
      | some port => .ok (mkProxyUrl schema src entry port)
      | none => .error ("No port specified for entry " ++ entry ++ " and no default_port set")

/-- `Proxy.new` (`app/core/db.py`): create a proxy from a source id and a
full URL; raises (modelled as `Except.error`) when the URL has no hostname.
The protocol is `HTTP` iff the URL starts with `"http"`. -/
def Proxy.new (idNum : Nat) (source url : String) (now : Int) : Except String Proxy :=
  match urlparseHostname url with
  | none => .error ("Invalid proxy URL (no hostname): " ++ url)
  | some _ =>
    .ok { id := idNum, source := source, url := url,
          protocol := if strStartsWith url "http" then .http else .socks5,
          created_at := now }

/-- `Proxy.gateway` (`app/core/db.py`): `none` when `external_ip` is unknown,
otherwise whether `external_ip` differs from the URL hostname. -/
def Proxy.gateway (p : Proxy) : Option Bool :=
  match p.external_ip with
  | none => none
  | some ip => some (decide (some ip ≠ urlparseHostname p.url))

/-- `Proxy.is_time_to_delete` (`app/core/db.py`), at clock reading `now`:
the proxy was OK before but not within the last hour, or was never OK and
was created more than an hour ago. -/
def Proxy.is_time_to_delete (p : Proxy) (now : Int) : Bool :=
  match p.last_ok_at with
  | some t => decide (t < now - 3600)
  | none => decide (p.created_at < now - 3600)

/-! ## ProxyService.check (`app/core/services/proxy.py`)

The code reads the wall clock several times in one check:
`checked_at` is set from one `utc_now()` call (`t1`), `last_ok_at` — only on
success — from a second, later `utc_now()` call (`t2`), and
`is_time_to_delete` compares against `utc(hours=-1)` evaluated after the
update is persisted (`t3`). A monotone clock gives `t1 ≤ t2 ≤ t3`. The probe
result (`check_proxy_ip_via_public_services`) is modelled as the observed
external IP, `none` on failure. -/

/-- The record update computed by `ProxyService.check`: status, timestamps,
external IP and the history prepend truncated to 100 entries. -/
def checkUpdate (p : Proxy) (probeResult : Option String) (t1 t2 : Int) : Proxy :=
  let success := probeResult.isSome
  { p with
    status := if success then Status.ok else Status.down
    checked_at := some t1
    external_ip := probeResult
    last_ok_at := if success then some t2 else p.last_ok_at
    check_history := (success :: p.check_history).take 100 }

/-- `ProxyService.check`: apply the update, then evaluate the deletion policy
on the updated record at clock reading `t3`; the boolean is the `deleted`
flag of the returned dict. -/
def ProxyService.check (p : Proxy) (probeResult : Option String) (t1 t2 t3 : Int) :
    Proxy × Bool :=
  let updated := checkUpdate p probeResult t1 t2
  (updated, updated.is_time_to_delete t3)

/-- One probe outcome together with the two clock readings of the check that
consumes it. -/
structure CheckEvent where
  probeResult : Option String
  t1 : Int
  t2 : Int
deriving DecidableEq, Repr

/-- The record produced by a sequence of check operations on one proxy
(deletion aside: a deleted record has no further checks). -/
def runChecks (p : Proxy) (events : List CheckEvent) : Proxy :=
  events.foldl (fun q e => checkUpdate q e.probeResult e.t1 e.t2) p

/-! ## ProxyService.get_live_proxies (`app/core/services/proxy.py`)

The store query (`status == OK`, recent `last_ok_at`, optional source and
protocol narrowing, sorted by url) is the document-store collaborator; the
in-process pipeline below operates on whatever list it returned. -/

/-- The base store query predicate of `get_live_proxies` at clock reading
`now`: `status == OK` and `last_ok_at` within `live_last_ok_minutes`. -/
def liveQueryPred (now minutes : Int) (p : Proxy) : Bool :=
  p.status == Status.ok &&
    (match p.last_ok_at with
     | some t => decide (now - 60 * minutes < t)
     | none => false)

/-- `pydash.uniq_by(_, lambda p: p.external_ip)`: keep the first occurrence
per distinct `external_ip` key, in stable order; `seen` is the set of keys
already emitted. -/
def uniqByIpAux (seen : List (Option String)) : List Proxy → List Proxy
  | [] => []
  | p :: rest =>
    if p.external_ip ∈ seen then uniqByIpAux seen rest
    else p :: uniqByIpAux (p.external_ip :: seen) rest

/-- A truthy `external_ip` (the `if p.external_ip` test of the partition in
`get_live_proxies`). -/
def hasIp (p : Proxy) : Bool := pyTruthy p.external_ip

/-- The in-process filtering pipeline of `get_live_proxies`, applied to the
list the store returned: the gateway filter first, then the unique-IP
partition/dedup/concatenation. -/
def get_live_proxies (fetched : List Proxy) (unique_ip exclude_gateway : Bool) :
    List Proxy :=
  let l1 := if exclude_gateway then fetched.filter (fun p => p.gateway == some false) else fetched
  if unique_ip then
    let with_ip := l1.filter hasIp
    let without_ip := l1.filter (fun p => !hasIp p)
    uniqByIpAux [] with_ip ++ without_ip
  else l1

/-! ## SourceService.check (`app/core/services/source.py`) -/

/-- The proxy collection, a list of records whose `url` field carries a
unique index. -/
structure ProxyDb where
  proxies : List Proxy
deriving DecidableEq, Repr

/-- The urls currently present in the collection. -/
def ProxyDb.urls (db : ProxyDb) : List String := db.proxies.map (·.url)

/-- `insert_many(..., ordered=False)` under the unique index on `url` with
`BulkWriteError` suppressed: each record whose url is not yet present is
inserted, colliding records are silently dropped. -/
def insert_many (db : ProxyDb) : List Proxy → ProxyDb
  | [] => db
  | p :: rest =>
    if p.url ∈ db.urls then insert_many db rest
    else insert_many ⟨db.proxies ++ [p]⟩ rest

/-- The `[source.build_proxy_url(entry) for entry in ...]` comprehension:
sequential, the first raised `ValueError` aborts the whole list. -/
def buildUrls (src : Source) : List String → Except String (List String)
  | [] => .ok []
  | e :: rest =>
    match src.build_proxy_url e with
    | .error msg => .error msg
    | .ok u =>
      match buildUrls src rest with
      | .error msg => .error msg
      | .ok us => .ok (u :: us)

/-- The `[Proxy.new(id, url) for url in urls]` comprehension, with fresh ids
drawn from a counter; the first raised `ValueError` aborts the whole list. -/
def buildProxies (source : String) (now : Int) : Nat → List String → Except String (List Proxy)
  | _, [] => .ok []
  | n, u :: rest =>
    match Proxy.new n source u now with
    | .error msg => .error msg
    | .ok p =>
      match buildProxies source now (n + 1) rest with
      | .error msg => .error msg
      | .ok ps => .ok (p :: ps)

/-- `SourceService.check` (ingestion): build candidate URLs from the manual
entries, extend with the remote list when `entries_url` is set (`remote` is
the parsed body of a successful fetch, `none` models a failed fetch, after
which ingestion continues with the manual entries only), construct Proxy
records, bulk-insert ignoring url collisions, stamp the source, and return
`len(proxies)`. An uncaught `ValueError` from an entry propagates as
`Except.error`. -/
def SourceService.check (db : ProxyDb) (src : Source) (remote : Option (List String))
    (now : Int) (firstId : Nat) : Except String (ProxyDb × Source × Nat) :=
  let entries := src.entries ++ (match src.entries_url with
    | some _ => remote.getD []
    | none => [])
  match buildUrls src entries with
  | .error msg => .error msg
  | .ok urls =>
    match buildProxies src.id now firstId urls with
    | .error msg => .error msg
    | .ok ps =>
      .ok (insert_many db ps, { src with checked_at := some now }, ps.length)

/-! ## ProxyService.check_next (`app/core/services/proxy.py`) -/

/-- The settings consumed by the modelled services (`app/config.py`). -/
structure Settings where
  live_last_ok_minutes : Int := 15
  proxies_check : Bool := true
  max_proxies_check : Nat := 30
deriving DecidableEq, Repr

/-- Apply one scheduled check to the proxy with the given id inside the
store: replace the record with its update, or remove it when the deletion
policy fires. -/
def dbApplyCheck (db : List Proxy) (id : Nat) (probeResult : Option String) (now : Int) :
    List Proxy :=
  match db.find? (fun p => p.id == id) with
  | none => db
  | some p =>
    let r := ProxyService.check p probeResult now now now
    if r.2 then db.filter (fun q => !(q.id == id))
    else db.map (fun q => if q.id == id then r.1 else q)

/-- `ProxyService.check_next`: the scheduled batch. When `proxies_check` is
off, return immediately. Otherwise select up to `max_proxies_check`
candidates — never-checked proxies first, then the oldest proxies checked
more than 5 minutes ago — and run one check per candidate (`env` supplies
each probe's outcome by proxy id). Returns the new store and the ids of the
dispatched probes. -/
def ProxyService.check_next (settings : Settings) (db : List Proxy)
    (env : Nat → Option String) (now : Int) : List Proxy × List Nat :=
  if !settings.proxies_check then (db, [])
  else
    let limit := settings.max_proxies_check
    let unchecked := (db.filter (fun p => p.checked_at == none)).take limit
    let selected :=
      if unchecked.length < limit then
        unchecked ++
          ((db.filter (fun p => match p.checked_at with
              | some t => decide (t < now - 300)
              | none => false)).mergeSort
            (fun p q => p.checked_at.getD 0 ≤ q.checked_at.getD 0)).take
            (limit - unchecked.length)
      else unchecked
    (selected.foldl (fun acc p => dbApplyCheck acc p.id (env p.id) now) db,
     selected.map (·.id))

/-! ## Invariants and concrete records used to evaluate the claims -/

/-- The OK-status invariant of a Proxy record: `status == OK` implies
`last_ok_at` is set, `checked_at` is set, and `checked_at` equals or
precedes `last_ok_at`. -/
def okInv (p : Proxy) : Prop :=
  p.status = Status.ok →
    ∃ t c, p.last_ok_at = some t ∧ p.checked_at = some c ∧ c ≤ t

/-- A proxy already present in the store, for the duplicate-url run. -/
def cexProxy : Proxy :=
  { id := 0, source := "s", url := "http://1.2.3.4:8080", protocol := .http }

/-- A store holding exactly `cexProxy`. -/
def cexDb : ProxyDb := ⟨[cexProxy]⟩

/-- A source whose single entry resolves to `cexProxy`'s url. -/
def cexSrc : Source := { id := "s", entries := ["1.2.3.4:8080"] }

/-- A source with one complete entry and one port-less entry, and no
`default_port`. -/
def c2Src : Source := { id := "s2", entries := ["1.2.3.4:8080", "5.6.7.8"] }

/-- A never-OK proxy created at time 0. -/
def nvProxy : Proxy :=
  { id := 7, source := "s", url := "http://5.5.5.5:1", protocol := .http, created_at := 0 }

/-- A freshly created, never-checked proxy. -/
def freshProxy : Proxy :=
  { id := 8, source := "s", url := "http://6.6.6.6:1", protocol := .http, created_at := 0 }

/-- Live proxy A with external IP 9.9.9.9. -/
def c7A : Proxy :=
  { id := 1, source := "s", url := "http://1.1.1.1:1", protocol := .http,
    external_ip := some "9.9.9.9", status := .ok,
    checked_at := some 100, last_ok_at := some 100 }

/-- Live proxy B with the same external IP as A. -/
def c7B : Proxy :=
  { id := 2, source := "s", url := "http://2.2.2.2:1", protocol := .http,
    external_ip := some "9.9.9.9", status := .ok,
    checked_at := some 100, last_ok_at := some 100 }

/-- Live proxy C whose external IP is unknown. -/
def c7C : Proxy :=
  { id := 3, source := "s", url := "http://3.3.3.3:1", protocol := .http,
    external_ip := none, status := .ok,
    checked_at := some 100, last_ok_at := some 100 }

/-- A direct (non-gateway) live proxy: its external IP equals its URL
hostname. -/
def c8Direct : Proxy :=
  { id := 21, source := "s", url := "http://1.2.3.4:8080", protocol := .http,
    external_ip := some "1.2.3.4", status := .ok,
    checked_at := some 100, last_ok_at := some 100 }

/-! ## Helper lemmas -/

theorem insert_many_spec : ∀ (ps : List Proxy) (db : ProxyDb),
    ∃ created, (insert_many db ps).proxies = db.proxies ++ created ∧
      created.length ≤ ps.length
  | [], db => ⟨[], by simp [insert_many], by simp⟩
  | p :: rest, db => by
    unfold insert_many
    by_cases h : p.url ∈ db.urls
    · rw [if_pos h]
      obtain ⟨created, hc, hl⟩ := insert_many_spec rest db
      exact ⟨created, hc, Nat.le_succ_of_le hl⟩
    · rw [if_neg h]
      obtain ⟨created, hc, hl⟩ := insert_many_spec rest ⟨db.proxies ++ [p]⟩
      exact ⟨p :: created, by simpa [List.append_assoc] using hc,
             by simpa using Nat.succ_le_succ hl⟩

theorem buildUrls_error {src : Source} {e m : String} :
    ∀ {l : List String}, e ∈ l → src.build_proxy_url e = .error m →
      ∃ m2, buildUrls src l = .error m2
  | [], h, _ => absurd h (List.not_mem_nil e)
  | x :: rest, h, herr => by
    unfold buildUrls
    cases hx : src.build_proxy_url x with
    | error msg => exact ⟨msg, rfl⟩
    | ok u =>
      rcases List.mem_cons.mp h with rfl | hrest
      · rw [hx] at herr; exact absurd herr (by simp)
      · obtain ⟨m2, hm2⟩ := buildUrls_error hrest herr
        exact ⟨m2, by rw [hm2]⟩

theorem take_append_take {α : Type} (n : Nat) (L M : List α) :
    (L ++ M.take n).take n = (L ++ M).take n := by
  rw [List.take_append_eq_append_take, List.take_append_eq_append_take,
    List.take_take]
  rw [Nat.min_eq_left (Nat.sub_le n L.length)]

/-! ## Claims -/

/-- Claim C6: for every Proxy, when the single-proxy check's probe fails (no
external IP observed), the update sets status to DOWN and checked_at to the
current clock reading, sets external_ip to null, and leaves last_ok_at
exactly as it was before the check. -/
theorem claim_C6 (p : Proxy) (t1 t2 : Int) :
    (checkUpdate p none t1 t2).status = Status.down
  ∧ (checkUpdate p none t1 t2).checked_at = some t1
  ∧ (checkUpdate p none t1 t2).external_ip = none
  ∧ (checkUpdate p none t1 t2).last_ok_at = p.last_ok_at :=
  ⟨rfl, rfl, rfl, rfl⟩

/-- Claim C9: `Source.build_proxy_url` returns any entry starting with
`http://`, `https://` or `socks5://` unchanged; with no defaults it maps
`1.2.3.4:8080` to `http://1.2.3.4:8080`; with `default_port=1080` and
`default_protocol=socks5` it maps `1.2.3.4` to `socks5://1.2.3.4:1080`; and
for `1.2.3.4` with no default_port it raises a configuration error rather
than returning a URL. -/
theorem claim_C9 (src : Source) (entry : String)
    (h : (strStartsWith entry "http://" || strStartsWith entry "https://"
          || strStartsWith entry "socks5://") = true) :
    src.build_proxy_url entry = .ok entry
  ∧ Source.build_proxy_url { id := "s" } "1.2.3.4:8080" = .ok "http://1.2.3.4:8080"
  ∧ Source.build_proxy_url
      { id := "s", default_port := some 1080, default_protocol := some .socks5 }
      "1.2.3.4" = .ok "socks5://1.2.3.4:1080"
  ∧ ∃ msg, Source.build_proxy_url { id := "s" } "1.2.3.4" = .error msg := by
  refine ⟨?_, rfl, rfl, ⟨_, rfl⟩⟩
  unfold Source.build_proxy_url
  rw [h]
  rfl

/-- Witness for C9 at a fully-qualified socks5 entry. -/
theorem claim_C9_witness :
    Source.build_proxy_url { id := "w" } "socks5://a:b@h:1" = .ok "socks5://a:b@h:1" :=
  (claim_C9 { id := "w" } "socks5://a:b@h:1" (by decide)).1

/-- Claim C10: when the `proxies_check` setting is false, the scheduled
batch `check_next` returns immediately: it dispatches no probes and leaves
every Proxy record in the store unchanged. -/
theorem claim_C10 (settings : Settings) (db : List Proxy)
    (env : Nat → Option String) (now : Int)
    (h : settings.proxies_check = false) :
    ProxyService.check_next settings db env now = (db, []) := by
  unfold ProxyService.check_next
  rw [h]
  rfl

/-- Witness for C10 on a one-proxy store with checking disabled. -/
theorem claim_C10_witness :
    ProxyService.check_next { proxies_check := false } [nvProxy] (fun _ => none) 0
      = ([nvProxy], []) :=
  claim_C10 { proxies_check := false } [nvProxy] (fun _ => none) 0 rfl

/-- Claim C1 counterexample: ingesting a source whose only candidate URL
collides with an already-stored proxy url returns 1 while zero records were
created — the returned integer counts duplicates. -/
theorem claim_C1_counterexample :
    SourceService.check cexDb cexSrc none 10 1
      = .ok (cexDb, { cexSrc with checked_at := some 10 }, 1)
  ∧ cexDb.proxies.length - cexDb.proxies.length ≠ 1 :=
  ⟨rfl, by decide⟩

/-- Claim C1 (amended): the integer returned by an ingestion run is the
number of candidate Proxy records constructed (one per resolved URL,
duplicates counted); the number of records actually created is at most that
value, the new records being appended to the store. -/
theorem claim_C1_amended (db : ProxyDb) (src : Source) (remote : Option (List String))
    (now : Int) (firstId : Nat) (db2 : ProxyDb) (src2 : Source) (n : Nat)
    (h : SourceService.check db src remote now firstId = .ok (db2, src2, n)) :
    ∃ created, db2.proxies = db.proxies ++ created ∧ created.length ≤ n := by
  simp only [SourceService.check] at h
  cases hu : buildUrls src (src.entries ++ (match src.entries_url with
      | some _ => remote.getD []
      | none => [])) with
  | error msg => simp only [hu] at h; exact absurd h (by simp)
  | ok urls =>
    simp only [hu] at h
    cases hp : buildProxies src.id now firstId urls with
    | error msg => simp only [hp] at h; exact absurd h (by simp)
    | ok ps =>
      simp only [hp, Except.ok.injEq, Prod.mk.injEq] at h
      obtain ⟨hdb, -, hn⟩ := h
      subst hdb hn
      obtain ⟨created, hc, hl⟩ := insert_many_spec ps db
      exact ⟨created, hc, hl⟩

/-- Witness for C1 (amended) at the duplicate-url run. -/
theorem claim_C1_witness :
    ∃ created, cexDb.proxies = cexDb.proxies ++ created ∧ created.length ≤ 1 :=
  claim_C1_amended cexDb cexSrc none 10 1 cexDb { cexSrc with checked_at := some 10 } 1 rfl

/-- Claim C2 counterexample: ingesting a source holding one complete entry
and one port-less entry with no default_port fails as a whole — the
configuration error propagates to the caller and nothing is inserted, the
valid sibling entry included. -/
theorem claim_C2_counterexample :
    SourceService.check ⟨[]⟩ c2Src none 0 0
      = .error "No port specified for entry 5.6.7.8 and no default_port set" := rfl

/-- Claim C2 (amended): a partial entry with no port while the Source has no
default_port aborts the whole ingestion run: the error propagates to the
caller, and no entry of that Source — not even a valid one — is ingested in
that run. -/
theorem claim_C2_amended (db : ProxyDb) (src : Source) (remote : Option (List String))
    (now : Int) (firstId : Nat) (e : String) (he : e ∈ src.entries)
    (hpre : (strStartsWith e "http://" || strStartsWith e "https://"
             || strStartsWith e "socks5://") = false)
    (hcolon : e.data.contains ':' = false)
    (hport : src.default_port = none) :
    ∃ msg, SourceService.check db src remote now firstId = .error msg := by
  have hbuild : src.build_proxy_url e
      = .error ("No port specified for entry " ++ e ++ " and no default_port set") := by
    simp only [Source.build_proxy_url, rsplitColon, hpre, hcolon, hport,
      Bool.false_eq_true, if_false]
  have he2 : e ∈ src.entries ++ (match src.entries_url with
      | some _ => remote.getD []
      | none => []) := List.mem_append_left _ he
  obtain ⟨m2, hm2⟩ := buildUrls_error he2 hbuild
  refine ⟨m2, ?_⟩
  simp only [SourceService.check]
  rw [hm2]

/-- Witness for C2 (amended) at the concrete two-entry source. -/
theorem claim_C2_witness :
    ∃ msg, SourceService.check ⟨[]⟩ c2Src none 0 0 = .error msg :=
  claim_C2_amended ⟨[]⟩ c2Src none 0 0 "5.6.7.8" (by decide) (by decide) (by decide) rfl

/-- Claim C3 counterexample: a never-OK proxy created more than an hour
before the check (created at 0, checked at 3700) is NOT deleted when the
probe succeeds — the update first sets `last_ok_at` to now, so the deletion
policy no longer fires; deletion is not independent of the outcome. -/
theorem claim_C3_counterexample :
    nvProxy.last_ok_at = none ∧ nvProxy.created_at < 3700 - 3600
  ∧ (ProxyService.check nvProxy (some "9.9.9.9") 3700 3700 3700).2 = false := by
  refine ⟨rfl, by decide, rfl⟩

/-- Claim C3 (amended): for a Proxy with null `last_ok_at`, a check whose
probe fails deletes the record when `created_at` is more than 1 hour before
the deletion-policy clock reading; when the probe succeeds the record is
kept (its `last_ok_at` becomes the current time); and a record created
within the last hour is not deleted by a failing check. -/
theorem claim_C3_amended (p : Proxy) (ip : String) (t1 t2 t3 : Int)
    (hnv : p.last_ok_at = none) :
    (p.created_at < t3 - 3600 → (ProxyService.check p none t1 t2 t3).2 = true)
  ∧ (t3 - 3600 ≤ t2 → (ProxyService.check p (some ip) t1 t2 t3).2 = false)
  ∧ (t3 - 3600 ≤ p.created_at → (ProxyService.check p none t1 t2 t3).2 = false) := by
  simp only [ProxyService.check, checkUpdate, Proxy.is_time_to_delete,
    Option.isSome_none, Option.isSome_some, if_false, if_true, hnv]
  refine ⟨fun h => by simpa using h, fun h => by simpa using Int.not_lt.mpr h,
    fun h => by simpa using Int.not_lt.mpr h⟩

/-- Witness for C3 (amended): the concrete never-OK proxy is deleted by a
failing check an hour after creation. -/
theorem claim_C3_witness :
    (ProxyService.check nvProxy none 3700 3700 3700).2 = true :=
  (claim_C3_amended nvProxy "9.9.9.9" 3700 3700 3700 rfl).1 (by decide)

/-- Claim C4 counterexample: a successful check whose two clock reads are 0
(for `checked_at`) and then 1 (for `last_ok_at`) yields a record with
status OK whose `last_ok_at` strictly FOLLOWS `checked_at` — it does not
equal or precede it. -/
theorem claim_C4_counterexample :
    (checkUpdate freshProxy (some "9.9.9.9") 0 1).status = Status.ok
  ∧ (checkUpdate freshProxy (some "9.9.9.9") 0 1).last_ok_at = some 1
  ∧ (checkUpdate freshProxy (some "9.9.9.9") 0 1).checked_at = some 0
  ∧ ¬((1 : Int) ≤ 0) := by
  refine ⟨rfl, rfl, rfl, by decide⟩

/-- Claim C4 (amended): for every Proxy produced by any sequence of check
operations under a monotone clock (each check reads `checked_at` before
`last_ok_at`), status == OK implies `last_ok_at` is non-null and
`checked_at` equals or precedes `last_ok_at`. -/
theorem claim_C4_amended (p : Proxy) (events : List CheckEvent)
    (hmono : ∀ e ∈ events, e.t1 ≤ e.t2) (hinv : okInv p) :
    okInv (runChecks p events) := by
  induction events generalizing p with
  | nil => exact hinv
  | cons e es ih =>
    have h1 : e.t1 ≤ e.t2 := hmono e (List.mem_cons_self e es)
    have hstep : okInv (checkUpdate p e.probeResult e.t1 e.t2) := by
      intro hst
      cases hr : e.probeResult with
      | some ip =>
        exact ⟨e.t2, e.t1, by simp [checkUpdate, hr], by simp [checkUpdate, hr], h1⟩
      | none =>
        rw [checkUpdate, hr] at hst
        exact absurd hst (by simp)
    exact ih (checkUpdate p e.probeResult e.t1 e.t2)
      (fun x hx => hmono x (List.mem_cons_of_mem e hx)) hstep

/-- Witness for C4 (amended): one successful check on a fresh proxy with
clock reads 0 then 1. -/
theorem claim_C4_witness :
    okInv (runChecks freshProxy [⟨some "9.9.9.9", 0, 1⟩]) :=
  claim_C4_amended freshProxy [⟨some "9.9.9.9", 0, 1⟩]
    (by intro e he; simp at he; subst he; decide)
    (fun h => absurd h (by decide))

/-- Claim C5: after any number of checks on any Proxy (whose history starts
within the cap, as every freshly created record does), the history length
stays ≤ 100, and the history equals the most-recent-first sequence of
outcomes prepended to the initial history, truncated to the newest 100
entries — so each check prepends its outcome and the oldest entry is the
one dropped at the cap. -/
theorem claim_C5 (p : Proxy) (events : List CheckEvent)
    (h : p.check_history.length ≤ 100) :
    (runChecks p events).check_history.length ≤ 100
  ∧ (runChecks p events).check_history
      = ((events.map (fun e => e.probeResult.isSome)).reverse ++ p.check_history).take 100 := by
  have main : ∀ (es : List CheckEvent) (q : Proxy), q.check_history.length ≤ 100 →
      (runChecks q es).check_history
        = ((es.map (fun e => e.probeResult.isSome)).reverse ++ q.check_history).take 100 := by
    intro es
    induction es with
    | nil =>
      intro q hq
      simpa [runChecks] using (List.take_of_length_le hq).symm
    | cons e es2 ih =>
      intro q hq
      have hstep : runChecks q (e :: es2)
          = runChecks (checkUpdate q e.probeResult e.t1 e.t2) es2 := rfl
      have hlen : (checkUpdate q e.probeResult e.t1 e.t2).check_history.length ≤ 100 := by
        simp [checkUpdate]
      rw [hstep, ih _ hlen]
      show ((es2.map (fun x => x.probeResult.isSome)).reverse
          ++ (e.probeResult.isSome :: q.check_history).take 100).take 100 = _
      rw [take_append_take]
      simp [List.append_assoc]
  refine ⟨?_, main events p h⟩
  rw [main events p h]
  simp

/-- Witness for C5: one failing check on a fresh (empty-history) proxy. -/
theorem claim_C5_witness :
    (runChecks freshProxy [⟨none, 0, 0⟩]).check_history.length ≤ 100
  ∧ (runChecks freshProxy [⟨none, 0, 0⟩]).check_history
      = ((([⟨none, 0, 0⟩] : List CheckEvent).map (fun e => e.probeResult.isSome)).reverse
          ++ freshProxy.check_history).take 100 :=
  claim_C5 freshProxy [⟨none, 0, 0⟩] (by decide)

theorem uniqByIpAux_sublist : ∀ (l : List Proxy) (seen : List (Option String)),
    (uniqByIpAux seen l).Sublist l
  | [], _ => List.Sublist.slnil
  | p :: rest, seen => by
    unfold uniqByIpAux
    by_cases h : p.external_ip ∈ seen
    · rw [if_pos h]
      exact (uniqByIpAux_sublist rest seen).cons p
    · rw [if_neg h]
      exact (uniqByIpAux_sublist rest _).cons₂ p

theorem uniqByIpAux_first : ∀ (l : List Proxy) (seen : List (Option String)) (p : Proxy),
    p ∈ uniqByIpAux seen l →
      p.external_ip ∉ seen
    ∧ l.find? (fun q => q.external_ip == p.external_ip) = some p
  | [], _, p, h => absurd h (List.not_mem_nil p)
  | x :: rest, seen, p, h => by
    unfold uniqByIpAux at h
    by_cases hx : x.external_ip ∈ seen
    · rw [if_pos hx] at h
      obtain ⟨hns, hf⟩ := uniqByIpAux_first rest seen p h
      have hne : (x.external_ip == p.external_ip) = false :=
        beq_eq_false_iff_ne.mpr (fun hc => hns (hc ▸ hx))
      exact ⟨hns, by simp only [List.find?_cons, hne]; exact hf⟩
    · rw [if_neg hx] at h
      rcases List.mem_cons.mp h with rfl | htail
      · exact ⟨hx, List.find?_cons_of_pos _ (by simp)⟩
      · obtain ⟨hns, hf⟩ := uniqByIpAux_first rest (x.external_ip :: seen) p htail
        have hps : p.external_ip ∉ seen := fun hc => hns (List.mem_cons_of_mem _ hc)
        have hne : (x.external_ip == p.external_ip) = false :=
          beq_eq_false_iff_ne.mpr (fun hc => hns (hc ▸ List.mem_cons_self _ _))
        exact ⟨hps, by simp only [List.find?_cons, hne]; exact hf⟩

theorem uniqByIpAux_covers : ∀ (l : List Proxy) (seen : List (Option String)) (p : Proxy),
    p ∈ l → p.external_ip ∉ seen →
      ∃ q, q ∈ uniqByIpAux seen l ∧ q.external_ip = p.external_ip
  | [], _, p, h, _ => absurd h (List.not_mem_nil p)
  | x :: rest, seen, p, h, hns => by
    unfold uniqByIpAux
    by_cases hx : x.external_ip ∈ seen
    · rw [if_pos hx]
      rcases List.mem_cons.mp h with rfl | htail
      · exact absurd hx hns
      · exact uniqByIpAux_covers rest seen p htail hns
    · rw [if_neg hx]
      by_cases hip : p.external_ip = x.external_ip
      · exact ⟨x, List.mem_cons_self x _, hip.symm⟩
      · rcases List.mem_cons.mp h with rfl | htail
        · exact absurd rfl hip
        · obtain ⟨q, hq, hqe⟩ := uniqByIpAux_covers rest (x.external_ip :: seen) p htail
            (by
              intro hc
              rcases List.mem_cons.mp hc with hc1 | hc2
              · exact hip hc1
              · exact hns hc2)
          exact ⟨q, List.mem_cons_of_mem x hq, hqe⟩

/-- Claim C7: with unique_ip the pipeline partitions the list into records
with a truthy external_ip and those without, keeps within the known-IP part
only the first occurrence per distinct IP in first-seen stable order (a
stable sublist, every kept element the first with its IP, every present IP
represented), and appends the unknown-IP part unchanged; in particular on
[A(ip=9.9.9.9), B(ip=9.9.9.9), C(ip=null)] — all live records — it returns
[A, C]. -/
theorem claim_C7 (l : List Proxy) (p : Proxy) :
    (get_live_proxies l true false
       = uniqByIpAux [] (l.filter hasIp) ++ l.filter (fun q => !hasIp q))
  ∧ (uniqByIpAux [] (l.filter hasIp)).Sublist (l.filter hasIp)
  ∧ (p ∈ uniqByIpAux [] (l.filter hasIp) →
       (l.filter hasIp).find? (fun q => q.external_ip == p.external_ip) = some p)
  ∧ (p ∈ l.filter hasIp →
       ∃ q, q ∈ uniqByIpAux [] (l.filter hasIp) ∧ q.external_ip = p.external_ip)
  ∧ ([c7A, c7B, c7C].all (liveQueryPred 100 15) = true
       ∧ get_live_proxies [c7A, c7B, c7C] true false = [c7A, c7C]) := by
  refine ⟨rfl, uniqByIpAux_sublist _ _,
    fun h => (uniqByIpAux_first _ _ _ h).2,
    fun h => uniqByIpAux_covers _ _ _ h (List.not_mem_nil _),
    by decide, by decide⟩

/-- Witness for C7: in the concrete live list, A is the kept first
occurrence of its IP. -/
theorem claim_C7_witness :
    ([c7A, c7B, c7C].filter hasIp).find? (fun q => q.external_ip == c7A.external_ip)
      = some c7A :=
  (claim_C7 [c7A, c7B, c7C] c7A).2.2.1 (by decide)

/-- Claim C8: with exclude_gateway a proxy of the base-filtered set is kept
exactly when its gateway status is known-false — that is, exactly when its
external_ip is known and equals its URL hostname; a proxy whose known
external_ip differs from the hostname, and a proxy with null external_ip
(unknown gateway status), are both dropped. -/
theorem claim_C8 (l : List Proxy) (p : Proxy) :
    (p ∈ get_live_proxies l false true ↔ p ∈ l ∧ p.gateway = some false)
  ∧ (p.gateway = some false
       ↔ ∃ ip, p.external_ip = some ip ∧ urlparseHostname p.url = some ip)
  ∧ (p.external_ip = none → p.gateway = none) := by
  refine ⟨?_, ?_, ?_⟩
  · show p ∈ l.filter (fun q => q.gateway == some false) ↔ _
    rw [List.mem_filter]
    constructor
    · rintro ⟨h1, h2⟩
      exact ⟨h1, by simpa using h2⟩
    · rintro ⟨h1, h2⟩
      exact ⟨h1, by simp [h2]⟩
  · cases hip : p.external_ip with
    | none => simp [Proxy.gateway, hip]
    | some ip0 =>
      simp only [Proxy.gateway, hip, Option.some.injEq]
      rw [decide_eq_false_iff_not, not_ne_iff]
      constructor
      · intro hg
        exact ⟨ip0, rfl, hg.symm⟩
      · rintro ⟨ip, hi, hh⟩
        subst hi
        exact hh.symm
  · intro h
    simp [Proxy.gateway, h]

/-- Witness for C8: a direct proxy (external IP equal to its URL hostname)
is kept by the gateway filter. -/
theorem claim_C8_witness :
    c8Direct ∈ get_live_proxies [c8Direct] false true :=
  (claim_C8 [c8Direct] c8Direct).1.mpr ⟨List.mem_cons_self _ _, by decide⟩

end McbProxies
